import Mathlib

/-!
A shallow embedding, in Lean 4, of the email-processing pipeline of the
repository (backend/services: ai_processing.py, knowledge_base.py,
response_generation.py, email_workflow.py), together with theorems that
settle the specification claims about it.

Modelling conventions:
* Python strings are Lean `String`s; Python `needle in hay` is the
  contiguous-substring test on character lists.
* Python exceptions are modelled with `Option`/explicit error fields
  (`none` / a recorded error = the exception); `ZeroDivisionError`
  from the knowledge-base ranking sort is the only exception a pure
  component can raise.
* The database session is an external collaborator; its `add`/`commit`/
  `rollback` calls are logged, and an environment record says which of
  them raise.
* `uuid.uuid4()` identifiers are modelled by a fresh-counter (all that
  matters is that distinct creations get distinct ids); `datetime.now()`
  timestamps stored in queue entries never participate in comparisons
  (the strictly increasing counter decides ties first), so they are
  omitted from the queue-entry tuple.
-/

set_option maxRecDepth 40000

/-- `'` as a character, used to build the apostrophes that occur in the
source's keyword lists and response templates. -/
def apoC : Char := Char.ofNat 39

/-- `'` as a one-character string. -/
def apoS : String := String.mk [apoC]

/-- Python `str.lower()` (ASCII case folding suffices for the source's
keyword lists and templates), written on the character list so it
evaluates by kernel reduction. -/
def strLower (s : String) : String := String.mk (s.data.map Char.toLower)

/-- Python `needle in hay` for strings: contiguous-substring test. -/
def containsSub (hay needle : String) : Bool :=
  decide (needle.data <:+: hay.data)

/-- Enum `SentimentType` of ai_processing.py / models/email.py. -/
inductive SentimentType
  | positive
  | negative
  | neutral
deriving DecidableEq, Repr

/-- Enum `PriorityLevel` of ai_processing.py / models/email.py. -/
inductive PriorityLevel
  | urgent
  | not_urgent
deriving DecidableEq, Repr

/-- Enum `EmailStatus` of models/email.py. -/
inductive EmailStatus
  | pending
  | processed
  | resolved
  | failed
deriving DecidableEq, Repr

/-- `AIProcessingEngine.positive_keywords` (ai_processing.py). -/
def positive_keywords : List String :=
  ["thank", "thanks", "appreciate", "great", "excellent", "good",
   "wonderful", "fantastic", "amazing", "pleased", "satisfied",
   "happy", "delighted", "grateful", "awesome", "brilliant"]

/-- `AIProcessingEngine.negative_keywords` (ai_processing.py). -/
def negative_keywords : List String :=
  ["angry", "frustrated", "disappointed", "upset", "annoyed",
   "disgusted", "hate", "terrible", "awful", "horrible",
   "bad", "worst", "unhappy", "dissatisfied", "furious",
   "problem", "issue", "error", "broken", "failed", "cannot",
   "can" ++ apoS ++ "t", "won" ++ apoS ++ "t", "don" ++ apoS ++ "t",
   "doesn" ++ apoS ++ "t", "didn" ++ apoS ++ "t"]

/-- `AIProcessingEngine.urgent_keywords` (ai_processing.py). -/
def urgent_keywords : List String :=
  ["immediately", "urgent", "asap", "as soon as possible",
   "critical", "emergency", "important", "hurry", "quick",
   "fast", "soon", "now", "instantly", "right away",
   "cannot access", "can" ++ apoS ++ "t access", "blocked", "down",
   "crash", "crashed", "broken", "failure", "failed",
   "outage", "downtime", "offline", "unavailable"]

/-- `sum(1 for keyword in kws if keyword in textLower)`: the number of
keywords from the list that occur in the (already lowercased) text. -/
def keywordHits (kws : List String) (textLower : String) : Nat :=
  (kws.filter (fun k => containsSub textLower k)).length

/-- `AIProcessingEngine.analyze_sentiment` (ai_processing.py lines 52-73). -/
def analyze_sentiment (text : String) : SentimentType :=
  let text_lower := strLower text
  let positive_count := keywordHits positive_keywords text_lower
  let negative_count := keywordHits negative_keywords text_lower
  if positive_count > negative_count then SentimentType.positive
  else if negative_count > positive_count then SentimentType.negative
  else SentimentType.neutral

/-- `AIProcessingEngine.determine_priority` (ai_processing.py lines 75-92):
the source loop returns `URGENT` on the first matching keyword, which is
the same as testing whether any keyword matches. -/
def determine_priority (subject body : String) : PriorityLevel :=
  let text_lower := strLower (subject ++ " " ++ body)
  if urgent_keywords.any (fun k => containsSub text_lower k) then
    PriorityLevel.urgent
  else PriorityLevel.not_urgent

/-- `KnowledgeItem` (models/knowledge.py) as used by knowledge_base.py:
`id` is an opaque unique identifier (`uuid.uuid4()` in the source,
modelled as a fresh counter value). -/
structure KnowledgeItem where
  id : Nat
  title : String
  content : String
  category : Option String
  tags : List String
deriving DecidableEq, Repr

/-- The state of a `KnowledgeBase` (knowledge_base.py): the `items` list
plus the supply of fresh identifiers standing in for `uuid.uuid4()`. -/
structure KBState where
  items : List KnowledgeItem
  nextId : Nat
deriving DecidableEq, Repr

/-- The empty knowledge base (`KnowledgeBase.__init__`). -/
def kbInit : KBState := { items := [], nextId := 0 }

/-- `KnowledgeBase.add_item` (knowledge_base.py lines 21-45): appends the
new item and returns its id.  The source draws `item_id` from
`uuid.uuid4()`; the model draws it from the fresh counter. -/
def add_item (kb : KBState) (title content : String)
    (category : Option String) (tags : List String) : Nat × KBState :=
  let item_id := kb.nextId
  let item : KnowledgeItem :=
    { id := item_id, title := title, content := content,
      category := category, tags := tags }
  (item_id, { items := kb.items ++ [item], nextId := kb.nextId + 1 })

/-- The match predicate of `KnowledgeBase.search_items` (lines 61-70):
`if category and item.category != category: continue` — an absent (or
empty, hence falsy) category imposes no filter — and then the lowercased
query must be a substring of the title, the content, or some tag. -/
def search_matches (query_lower : String) (category : Option String)
    (item : KnowledgeItem) : Bool :=
  (match category with
   | none => true
   | some c => if c.isEmpty then true else item.category == some c) &&
  (containsSub (strLower item.title) query_lower ||
   containsSub (strLower item.content) query_lower ||
   item.tags.any (fun tag => containsSub (strLower tag) query_lower))

/-- The ranking key `len(query_lower) / len(item.title + item.content)`
of knowledge_base.py line 73, as an exact rational (the source computes
a float; no claim depends on rounding, only on totality and on which
items appear).  `none` is Python's `ZeroDivisionError` for an item whose
title and content are both empty. -/
def relevance_key (query_lower : String) (item : KnowledgeItem) : Option ℚ :=
  let denom := (item.title ++ item.content).length
  if denom = 0 then none
  else some ((query_lower.length : ℚ) / (denom : ℚ))

/-- CPython's sort-with-key first computes the key of every element,
raising if any key computation raises; this decorates each result with
its key, propagating the `ZeroDivisionError` as `none`. -/
def decorate_keys (query_lower : String) :
    List KnowledgeItem → Option (List (ℚ × KnowledgeItem))
  | [] => some []
  | item :: rest =>
    match relevance_key query_lower item, decorate_keys query_lower rest with
    | some k, some drest => some ((k, item) :: drest)
    | _, _ => none

/-- `results.sort(key=..., reverse=True)` comparator: descending by key;
`List.mergeSort` is stable, like CPython's sort, so equal keys stay in
encounter order. -/
def rank_desc (a b : ℚ × KnowledgeItem) : Bool := decide (b.1 ≤ a.1)

/-- `KnowledgeBase.search_items` (knowledge_base.py lines 47-75): filter
by the match predicate, sort descending by the relevance ratio (`none`
when the sort's key computation divides by zero), cap at `limit`. -/
def search_items (items : List KnowledgeItem) (query : String)
    (category : Option String) (limit : Nat) : Option (List KnowledgeItem) :=
  let query_lower := strLower query
  let results := items.filter (search_matches query_lower category)
  match decorate_keys query_lower results with
  | none => none
  | some decorated =>
    some (((decorated.mergeSort rank_desc).map Prod.snd).take limit)

/-- A value stored in an email's `extracted_info` JSON mapping:
`extract_information` (ai_processing.py) produces lists of strings for
phones/emails/products and a two-list record for the sentiment
indicators. -/
inductive InfoVal
  | strs (l : List String)
  | indicators (positive negative : List String)
deriving DecidableEq, Repr

/-- A Python dict `str -> value` as an association list (no duplicate
keys arise: dict construction and `update` keep one entry per key). -/
abbrev InfoDict := List (String × InfoVal)

/-- Python `d[k]` lookup (as an `Option`). -/
def dictLookup (d : InfoDict) (k : String) : Option InfoVal :=
  (d.find? (fun p => p.1 == k)).map (fun p => p.2)

/-- Python `d[k] = v`: replace the value in place if the key exists,
otherwise append the new key. -/
def dictInsert (d : InfoDict) (k : String) (v : InfoVal) : InfoDict :=
  if d.any (fun p => p.1 == k) then
    d.map (fun p => if p.1 == k then (k, v) else p)
  else d ++ [(k, v)]

/-- Python `d.update(fresh)`: assign each key of `fresh` in order. -/
def dictUpdate (d : InfoDict) (fresh : InfoDict) : InfoDict :=
  fresh.foldl (fun acc p => dictInsert acc p.1 p.2) d

/-- Lookup through the email's nullable `extracted_info` column. -/
def infoLookup (old : Option InfoDict) (k : String) : Option InfoVal :=
  match old with
  | none => none
  | some d => dictLookup d k

/-- email_workflow.py lines 119-123: `if email.extracted_info:
email.extracted_info.update(...)` else wholesale assignment.  Both
`None` and the (falsy) empty dict take the assignment branch. -/
def mergeExtracted (old : Option InfoDict) (fresh : InfoDict) : InfoDict :=
  match old with
  | none => fresh
  | some d => if d.isEmpty then fresh else dictUpdate d fresh

/-- The `Email` record (models/email.py) as the workflow reads and
mutates it; `received_at`/`created_at` timestamps play no role in any
claimed behaviour and are omitted. -/
structure QEmail where
  id : Nat
  sender_email : String
  subject : String
  body : String
  sentiment : SentimentType
  priority : PriorityLevel
  status : EmailStatus
  extracted_info : Option InfoDict
deriving DecidableEq, Repr

/-- The `Response` record (models/response.py) as created by the
workflow. -/
structure WResponse where
  email_id : Nat
  generated_content : String
  status : String
deriving DecidableEq, Repr

/-- A heap entry `(priority, counter, datetime.now(), email)` of
email_workflow.py line 90.  The timestamp is omitted: the strictly
increasing `counter` makes every comparison stop before reaching it. -/
structure QueueEntry where
  rank : Nat
  seq : Nat
  email : QEmail
deriving DecidableEq, Repr

/-- The mutable state of `EmailProcessingWorkflow` that the queue
operations touch: `processing_queue` and `_counter`.  `heapq` maintains
a binary heap over the entry tuples; the model keeps the entries as a
list and lets the pop operation select the minimum, which is exactly
the heap's observable behaviour. -/
structure WorkflowState where
  queue : List QueueEntry
  counter : Nat
deriving DecidableEq, Repr

/-- `EmailProcessingWorkflow.__init__`: empty queue, counter 0. -/
def workflowInit : WorkflowState := { queue := [], counter := 0 }

/-- `priority = 0 if email.priority == PriorityLevel.URGENT else 1`
(email_workflow.py line 86). -/
def priorityRank (p : PriorityLevel) : Nat :=
  if p = PriorityLevel.urgent then 0 else 1

/-- `EmailProcessingWorkflow.add_email_to_queue` (email_workflow.py
lines 79-92): push `(priority, counter, email)` and bump the counter.
There is no check of `email.status`. -/
def add_email_to_queue (s : WorkflowState) (email : QEmail) : WorkflowState :=
  { queue := s.queue ++ [{ rank := priorityRank email.priority,
                           seq := s.counter, email := email }],
    counter := s.counter + 1 }

/-- Lexicographic order on the `(priority, counter)` prefix of a heap
entry — the order `heapq` compares tuples by (the counter is unique, so
comparison never reaches the remaining components). -/
def keyLE (a b : QueueEntry) : Prop :=
  a.rank < b.rank ∨ (a.rank = b.rank ∧ a.seq ≤ b.seq)

instance keyLE.dec (a b : QueueEntry) : Decidable (keyLE a b) := by
  unfold keyLE; infer_instance

/-- `heapq.heappop`: remove and return the minimum entry (ties — which
cannot occur for distinct counters — resolve to the earlier element,
matching the model's list order). -/
def popMin : List QueueEntry → Option (QueueEntry × List QueueEntry)
  | [] => none
  | e :: rest =>
    match popMin rest with
    | none => some (e, [])
    | some (m, rest') =>
      if keyLE e m then some (e, m :: rest') else some (m, e :: rest')

/-! Character-level models of the three `re.findall` scans of
`AIProcessingEngine.extract_information` (ai_processing.py lines
94-136).  Each Python regex is compiled by hand into a scanner over the
character list; `\b`, greedy quantifiers and the (finitely many)
backtracking choices of the optional separators are spelled out.  `\w`
is modelled on ASCII (letters, digits, underscore), which covers every
text the repository handles. -/

/-- Python `\w` on ASCII: letters, digits, underscore. -/
def isWordCh (c : Char) : Bool := c.isAlphanum || c = '_'

/-- Python `\s`: space, tab, newline, carriage return, vertical tab,
form feed. -/
def pyIsSpace (c : Char) : Bool :=
  c = ' ' || c = '\t' || c = '\n' || c = '\r' ||
  c = Char.ofNat 11 || c = Char.ofNat 12

/-- Whether `\b` holds between a just-matched final character and the
following text (end of input counts as a non-word position). -/
def boundaryAfter (lastc : Char) (rest : List Char) : Bool :=
  match rest with
  | [] => isWordCh lastc
  | c :: _ => isWordCh lastc != isWordCh c

/-- Exactly `n` digits (`\d{n}`); returns the digits and the rest. -/
def parseDigits : Nat → List Char → Option (List Char × List Char)
  | 0, cs => some ([], cs)
  | _ + 1, [] => none
  | n + 1, c :: cs =>
    if c.isDigit then (parseDigits n cs).map (fun p => (c :: p.1, p.2))
    else none

/-- `[-.]?` is greedy: the alternatives in the order the regex engine
tries them (separator consumed first, then not). -/
def sepChoices (cs : List Char) : List (List Char × List Char) :=
  match cs with
  | c :: rest => if c = '-' || c = '.' then [([c], rest), ([], cs)] else [([], cs)]
  | [] => [([], [])]

/-- First alternative that makes the continuation succeed. -/
def firstSome : List α → (α → Option β) → Option β
  | [], _ => none
  | a :: rest, f =>
    match f a with
    | some b => some b
    | none => firstSome rest f

/-- `\d{3}[-.]?\d{3}[-.]?\d{4}\b` at the current position (the leading
`\b` is checked by the caller). -/
def matchPhoneAt (cs : List Char) : Option (List Char × List Char) :=
  match parseDigits 3 cs with
  | none => none
  | some (d1, r1) =>
    firstSome (sepChoices r1) fun s1 =>
      match parseDigits 3 s1.2 with
      | none => none
      | some (d2, r2) =>
        firstSome (sepChoices r2) fun s2 =>
          match parseDigits 4 s2.2 with
          | none => none
          | some (d3, r3) =>
            let m := d1 ++ s1.1 ++ d2 ++ s2.1 ++ d3
            if boundaryAfter '0' r3 then some (m, r3) else none

/-- `[A-Z][A-Z0-9]+\b` at the current position: an upper-case letter,
then a maximal upper-case/digit run of length ≥ 1; a shorter run can
never restore `\b`, so no backtracking arises. -/
def matchProductAt (cs : List Char) : Option (List Char × List Char) :=
  match cs with
  | [] => none
  | c :: rest =>
    if c.isUpper then
      let run := rest.takeWhile (fun x => x.isUpper || x.isDigit)
      let rest' := rest.drop run.length
      match run.getLast? with
      | none => none
      | some lastc =>
        if boundaryAfter lastc rest' then some (c :: run, rest') else none
    else none

/-- Characters of the regex class `[A-Za-z0-9._%+-]` (local part). -/
def localCh (c : Char) : Bool :=
  c.isAlphanum || c = '.' || c = '_' || c = '%' || c = '+' || c = '-'

/-- Characters of the regex class `[A-Za-z0-9.-]` (domain part). -/
def domainCh (c : Char) : Bool := c.isAlphanum || c = '.' || c = '-'

/-- Characters of the regex class `[A-Z|a-z]` (the source's top-level
-domain class, which literally includes `|`). -/
def letterBarCh (c : Char) : Bool := c.isAlpha || c = '|'

/-- `[A-Z|a-z]{2,}\b` against `t ++ rest` where `t` is the maximal
class run: greedy, backtracking the run length `j` down to 2 until the
word boundary holds. -/
def tldGo (t rest : List Char) : Nat → Option (List Char × List Char)
  | 0 => none
  | j + 1 =>
    let jj := j + 1
    if jj < 2 then none
    else
      match t.get? (jj - 1) with
      | none => tldGo t rest j
      | some lastc =>
        if boundaryAfter lastc (t.drop jj ++ rest) then
          some (t.take jj, t.drop jj ++ rest)
        else tldGo t rest j

/-- `\.[A-Z|a-z]{2,}\b` starting inside the domain run: `drun` is the
maximal `[A-Za-z0-9.-]` run, and the greedy `+` before `\.` backtracks
`d` (the number of domain characters it keeps) downwards, so the
spinner takes the largest `d` whose following character is `.` and
whose tail matches. -/
def domainSplit (lrun drun r3 : List Char) : Nat → Option (List Char × List Char)
  | 0 => none
  | d + 1 =>
    let dd := d + 1
    (match drun.get? dd with
     | some c =>
       if c = '.' then
         let tail := drun.drop (dd + 1) ++ r3
         match tldGo (tail.takeWhile letterBarCh)
             (tail.drop (tail.takeWhile letterBarCh).length)
             (tail.takeWhile letterBarCh).length with
         | some (tld, rest) =>
           some (lrun ++ ['@'] ++ drun.take dd ++ ['.'] ++ tld, rest)
         | none => none
       else none
     | none => none).orElse (fun _ => domainSplit lrun drun r3 d)

/-- `[A-Za-z0-9._%+-]+@[A-Za-z0-9.-]+\.[A-Z|a-z]{2,}\b` at the current
position (the leading `\b` is checked by the caller).  Neither `@` nor
(past the run) `.` belongs to the runs' classes beyond their maximal
extent, so the `+`s only succeed at the positions tried here. -/
def matchEmailAt (cs : List Char) : Option (List Char × List Char) :=
  let lrun := cs.takeWhile localCh
  let r1 := cs.drop lrun.length
  if lrun.isEmpty then none
  else
    match r1 with
    | '@' :: r2 =>
      let drun := r2.takeWhile domainCh
      let r3 := r2.drop drun.length
      if drun.isEmpty then none
      else domainSplit lrun drun r3 (drun.length - 1)
    | _ => none

/-- `re.findall` driver: try a match at every position from left to
right, skipping past each successful (non-overlapping) match, tracking
whether the previous character was a word character for `\b`. -/
def scanAux (matchAt : Bool → List Char → Option (List Char × List Char)) :
    Nat → Bool → List Char → List String
  | 0, _, _ => []
  | _ + 1, _, [] => []
  | fuel + 1, prevWord, c :: cs =>
    match matchAt prevWord (c :: cs) with
    | some (m, rest) =>
      String.mk m ::
        scanAux matchAt fuel
          (match m.getLast? with
           | some lc => isWordCh lc
           | none => prevWord) rest
    | none => scanAux matchAt fuel (isWordCh c) cs

/-- `re.findall(r'\b\d{3}[-.]?\d{3}[-.]?\d{4}\b', body)`. -/
def findPhones (body : String) : List String :=
  scanAux (fun prevWord cs => if prevWord then none else matchPhoneAt cs)
    (body.length + 1) false body.data

/-- `re.findall` for the email-address pattern of ai_processing.py. -/
def findEmails (body : String) : List String :=
  scanAux
    (fun prevWord cs =>
      match cs with
      | c :: _ =>
        if localCh c && (prevWord != isWordCh c) then matchEmailAt cs else none
      | [] => none)
    (body.length + 1) false body.data

/-- `re.findall(r'\b[A-Z][A-Z0-9]+\b', text)`. -/
def findProducts (text : String) : List String :=
  scanAux (fun prevWord cs => if prevWord then none else matchProductAt cs)
    (text.length + 1) false text.data

/-- `AIProcessingEngine.extract_information` (ai_processing.py lines
94-136): phones, emails, product candidates, and which sentiment
keywords are present in the lowercased body. -/
def extract_information (body : String) : InfoDict :=
  [("phones", InfoVal.strs (findPhones body)),
   ("emails", InfoVal.strs (findEmails body)),
   ("products", InfoVal.strs (findProducts body)),
   ("sentiment_indicators",
     InfoVal.indicators
       (positive_keywords.filter (fun k => containsSub (strLower body) k))
       (negative_keywords.filter (fun k => containsSub (strLower body) k)))]

/-- The result dictionary of `AIProcessingEngine.process_email`. -/
structure AIResults where
  sentiment : SentimentType
  priority : PriorityLevel
  extracted_info : InfoDict
deriving DecidableEq, Repr

/-- `AIProcessingEngine.process_email` (ai_processing.py lines 138-165). -/
def process_email (subject body : String) : AIResults :=
  { sentiment := analyze_sentiment body,
    priority := determine_priority subject body,
    extracted_info := extract_information body }

/-! `ResponseGenerator._extract_issues` (response_generation.py lines
221-248): four patterns of the shape
`(alt1|alt2|...)\s+(.+?)[.!?]` with `re.IGNORECASE`; `findall` yields
the group pairs and the code keeps `match[1].strip()`. -/

/-- Case-insensitive literal match of one (lowercased) alternative;
returns the rest on success. -/
def matchTriggerCI : List Char → List Char → Option (List Char)
  | [], cs => some cs
  | _ :: _, [] => none
  | a :: ts, c :: cs => if c.toLower = a then matchTriggerCI ts cs else none

/-- Lazy `(.+?)` followed by the class `[.!?]`: capture the shortest
non-empty stretch of non-newline characters ending right before a
terminator; fails on a newline (`.` does not match `\n`) or at the end
of input. -/
def lazyCap (acc : List Char) : List Char → Option (List Char × List Char)
  | [] => none
  | c :: rest =>
    if acc ≠ [] && (c = '.' || c = '!' || c = '?') then some (acc.reverse, rest)
    else if c = '\n' then none
    else lazyCap (c :: acc) rest

/-- Greedy `\s+` with backtracking: try consuming `w` whitespace
characters for `w` from the maximal run length down to 1, continuing
with the lazy capture. -/
def wsTry (wsrun after : List Char) : Nat → Option (List Char × List Char)
  | 0 => none
  | w + 1 =>
    match lazyCap [] (wsrun.drop (w + 1) ++ after) with
    | some r => some r
    | none => wsTry wsrun after w

/-- One issue pattern at the current position: alternatives in regex
order (each continuing with `\s+(.+?)[.!?]`, backtracking into the next
alternative on failure); returns (second group, rest after match). -/
def matchIssueAt (triggers : List (List Char)) (cs : List Char) :
    Option (List Char × List Char) :=
  firstSome triggers fun t =>
    match matchTriggerCI t cs with
    | none => none
    | some rest =>
      let wsrun := rest.takeWhile pyIsSpace
      wsTry wsrun (rest.drop wsrun.length) wsrun.length

/-- `re.findall` driver for the issue patterns (no `\b` in them, so no
word tracking is needed). -/
def findIssuesAux (triggers : List (List Char)) :
    Nat → List Char → List (List Char)
  | 0, _ => []
  | _ + 1, [] => []
  | fuel + 1, c :: cs =>
    match matchIssueAt triggers (c :: cs) with
    | some (g2, after) => g2 :: findIssuesAux triggers fuel after
    | none => findIssuesAux triggers fuel cs

/-- Python `str.strip()`: drop whitespace from both ends. -/
def pyStrip (s : List Char) : List Char :=
  ((s.dropWhile pyIsSpace).reverse.dropWhile pyIsSpace).reverse

/-- All `match[1].strip()` results of one pattern over the body. -/
def issuesOfPattern (triggers : List String) (body : String) : List String :=
  (findIssuesAux (triggers.map String.data) (body.length + 1) body.data).map
    (fun g => String.mk (pyStrip g))

/-- The alternatives of the four `issue_patterns`, in source order. -/
def issueTriggers1 : List String :=
  ["cannot", "can" ++ apoS ++ "t", "couldn" ++ apoS ++ "t"]

def issueTriggers2 : List String := ["having trouble", "struggling with"]

def issueTriggers3 : List String := ["issue with", "problem with", "error with"]

def issueTriggers4 : List String := ["not working", "broken", "failed"]

/-- `ResponseGenerator._extract_issues`: the four patterns' results
concatenated in pattern order. -/
def extract_issues (body : String) : List String :=
  issuesOfPattern issueTriggers1 body ++ issuesOfPattern issueTriggers2 body ++
  issuesOfPattern issueTriggers3 body ++ issuesOfPattern issueTriggers4 body

/-- `common_topics` of `ResponseGenerator._extract_topics`
(response_generation.py lines 65-69). -/
def common_topics : List String :=
  ["account", "login", "password", "verification", "billing",
   "payment", "subscription", "api", "integration", "refund",
   "access", "error", "issue", "problem", "help", "support"]

/-- `list(set(xs))`, modelled as first-occurrence deduplication.
CPython's set iteration order is an implementation detail that is fixed
within one interpreter run; every claimed property is insensitive to
which fixed order is chosen. -/
def dedupFirstAux (seen : List String) : List String → List String
  | [] => []
  | x :: xs =>
    if x ∈ seen then dedupFirstAux seen xs
    else x :: dedupFirstAux (x :: seen) xs

/-- `ResponseGenerator._extract_topics` (response_generation.py lines
50-81): fixed-vocabulary hits on the lowercased text plus the
capitalized product candidates, deduplicated. -/
def extract_topics (subject body : String) : List String :=
  let text := strLower (subject ++ " " ++ body)
  let topics := common_topics.filter (fun t => containsSub text t)
  let products := findProducts (subject ++ " " ++ body)
  dedupFirstAux [] (topics ++ products)

/-- The per-topic searches of `ResponseGenerator._retrieve_knowledge`
(limit 3 per topic), concatenated; `none` if any search raises. -/
def searchTopics (kb : List KnowledgeItem) : List String → Option (List KnowledgeItem)
  | [] => some []
  | t :: ts =>
    match search_items kb t none 3, searchTopics kb ts with
    | some items, some rest => some (items ++ rest)
    | _, _ => none

/-- The de-duplication by `item["id"]` preserving first-seen order
(response_generation.py lines 109-114). -/
def dedupById (seen : List Nat) : List KnowledgeItem → List KnowledgeItem
  | [] => []
  | x :: xs =>
    if x.id ∈ seen then dedupById seen xs
    else x :: dedupById (x.id :: seen) xs

/-- `ResponseGenerator._retrieve_knowledge` (lines 83-116): search each
topic, de-duplicate by id, cap at 5. -/
def retrieve_knowledge (kb : List KnowledgeItem) (topics : List String) :
    Option (List KnowledgeItem) :=
  (searchTopics kb topics).map (fun items => (dedupById [] items).take 5)

/-- `ResponseGenerator._generate_response_with_context` (lines
118-171): the deterministic template fill. -/
def generate_response_with_context (subject body : String)
    (sentiment : SentimentType) (topics : List String)
    (knowledge_items : List KnowledgeItem)
    (extracted_info : Option InfoDict) : String :=
  let ack :=
    if sentiment = SentimentType.negative then
      "I understand you" ++ apoS ++
        "re experiencing some frustration, and I sincerely apologize for any inconvenience this has caused.\n\n"
    else if sentiment = SentimentType.positive then
      "Thank you for reaching out to us.\n\n"
    else ""
  let main :=
    match knowledge_items with
    | [] =>
      "Thank you for your inquiry. We" ++ apoS ++
        "re currently looking into this matter and will get back to you with more detailed information shortly.\n\n"
    | primary :: restItems =>
      "Regarding your inquiry about " ++ strLower primary.title ++ ":\n\n" ++
      primary.content ++ "\n\n" ++
      (if restItems.isEmpty then ""
       else
         "Additionally, you might find the following information helpful:\n" ++
         String.join ((restItems.take 2).map (fun item =>
           "- " ++ item.title ++ ": " ++
           String.mk (item.content.data.take 100) ++ "...\n")) ++ "\n")
  "Hello,\n\n" ++ ack ++ main ++
  "If you need further assistance, please don" ++ apoS ++
    "t hesitate to reach out to our support team at support@company.com or call us at 1-800-123-4567.\n\n" ++
  "Best regards,\nCustomer Support Team"

/-- `ResponseGenerator.generate_response` (lines 21-48): extract
topics, retrieve knowledge (a raising search propagates as `none`),
fill the template. -/
def generate_response (kb : List KnowledgeItem) (subject body : String)
    (sentiment : SentimentType) (extracted_info : Option InfoDict) :
    Option String :=
  let topics := extract_topics subject body
  match retrieve_knowledge kb topics with
  | none => none
  | some items =>
    some (generate_response_with_context subject body sentiment topics items
      extracted_info)

/-- The template text of the negative branch of
`ResponseGenerator.generate_empathetic_response` (lines 192-219). -/
def empathetic_text (body : String) : String :=
  let issues := extract_issues body
  "Hello,\n\n" ++
  "I" ++ apoS ++ "m truly sorry to hear about the difficulties you" ++ apoS ++
    "re experiencing. I completely understand how frustrating this situation must be for you, and I want to assure you that we" ++
    apoS ++ "re taking your concerns seriously.\n\n" ++
  (if issues.isEmpty then ""
   else
     "I can see that you" ++ apoS ++
       "re dealing with the following issues:\n" ++
     String.join ((issues.take 3).map (fun issue => "- " ++ issue ++ "\n")) ++
     "\n") ++
  "To help resolve this as quickly as possible, I" ++ apoS ++
    "m escalating your case to our senior support team. They will personally follow up with you within the next 24 hours.\n\n" ++
  "In the meantime, if you have any additional questions or concerns, please feel free to reply to this email or contact our priority support line at 1-800-123-4567, extension 9.\n\n" ++
  "Thank you for your patience and understanding.\n\n" ++
  "Best regards,\nCustomer Support Team"

/-- `ResponseGenerator.generate_empathetic_response` (lines 173-219):
for non-negative sentiment it falls straight through to
`generate_response`; otherwise the apology-first template with up to
three extracted issues. -/
def generate_empathetic_response (kb : List KnowledgeItem)
    (subject body : String) (sentiment : SentimentType)
    (extracted_info : Option InfoDict) : Option String :=
  if sentiment ≠ SentimentType.negative then
    generate_response kb subject body sentiment extracted_info
  else some (empathetic_text body)

/-- The variant dispatch of `process_next_email` (email_workflow.py
lines 129-136): the freshly computed sentiment selects the generator. -/
def select_generated_content (kb : List KnowledgeItem)
    (subject body : String) (sentiment : SentimentType)
    (extracted_info : Option InfoDict) : Option String :=
  if sentiment = SentimentType.negative then
    generate_empathetic_response kb subject body sentiment extracted_info
  else generate_response kb subject body sentiment extracted_info

/-- A database-session call that completed successfully. -/
inductive DbAction
  | add
  | commit
  | rollback
deriving DecidableEq, Repr

/-- An error surfaced by the store (the only collaborator whose calls
can fail). -/
inductive DbError
  | commitFailed
deriving DecidableEq, Repr

/-- Which of the db session's calls raise during one
`process_next_email` run: the first `db.commit` / `db.add` of the try
block, and the failure-recording `db.commit` of the except block. -/
structure DbEnv where
  addRaises : Bool
  commitRaises : Bool
  failCommitRaises : Bool
deriving DecidableEq, Repr

/-- A db environment in which every session call succeeds. -/
def dbOk : DbEnv :=
  { addRaises := false, commitRaises := false, failCommitRaises := false }

/-- The observable outcome of one `process_next_email` call.
`raised = some e` means the call raised `e` instead of returning (the
recorded `state`/`item` mutations have still happened, as they do on
the Python objects); otherwise `handled` is the returned boolean.
`item` is the popped email after all mutations, `resp` the `Response`
record the call added to the session, `dbLog` the session calls that
completed. -/
structure ProcResult where
  handled : Bool
  raised : Option DbError
  state : WorkflowState
  item : Option QEmail
  resp : Option WResponse
  dbLog : List DbAction
deriving DecidableEq, Repr

/-- The except block of `process_next_email` (email_workflow.py lines
154-160): `db.rollback()`, set the email's status to `FAILED`, and
`db.commit()` — that second commit is outside any handler, so if it
raises, the exception propagates. -/
def failureRecord (env : DbEnv) (s' : WorkflowState) (preLog : List DbAction)
    (e : QEmail) : ProcResult :=
  let emailF := { e with status := EmailStatus.failed }
  if env.failCommitRaises then
    { handled := true, raised := some DbError.commitFailed, state := s',
      item := some emailF, resp := none,
      dbLog := preLog ++ [DbAction.rollback] }
  else
    { handled := true, raised := none, state := s', item := some emailF,
      resp := none, dbLog := preLog ++ [DbAction.rollback, DbAction.commit] }

/-- `EmailProcessingWorkflow.process_next_email` (email_workflow.py
lines 94-160).  Pop the minimum entry; classify; merge
`extracted_info`; set sentiment, priority and status `PROCESSED`;
generate the reply (the empathetic variant exactly for negative fresh
sentiment); create the draft `Response`; `db.add`; `db.commit`.  Any
exception in that block (a raising knowledge search inside generation,
or a raising `db.add`/`db.commit` per `env`) lands in the except
block. -/
def process_next_email (kb : List KnowledgeItem) (s : WorkflowState)
    (env : DbEnv) : ProcResult :=
  match popMin s.queue with
  | none =>
    { handled := false, raised := none, state := s, item := none,
      resp := none, dbLog := [] }
  | some (entry, rest) =>
    let s' : WorkflowState := { s with queue := rest }
    let email := entry.email
    let ai := process_email email.subject email.body
    let email1 : QEmail :=
      { email with
        sentiment := ai.sentiment,
        priority := ai.priority,
        extracted_info := some (mergeExtracted email.extracted_info ai.extracted_info),
        status := EmailStatus.processed }
    match select_generated_content kb email.subject email.body ai.sentiment
        email1.extracted_info with
    | none => failureRecord env s' [] email1
    | some content =>
      if env.addRaises then failureRecord env s' [] email1
      else if env.commitRaises then failureRecord env s' [DbAction.add] email1
      else
        { handled := true, raised := none, state := s', item := some email1,
          resp := some { email_id := email.id, generated_content := content,
                         status := "draft" },
          dbLog := [DbAction.add, DbAction.commit] }

/-- One call against a `EmailProcessingWorkflow` instance. -/
inductive WorkflowOp
  | enq (email : QEmail)
  | deq (env : DbEnv)

/-- The workflow-state effect of one call (on a raising
`process_next_email` the Python object keeps the mutations made before
the raise, which is exactly `ProcResult.state`). -/
def stepOp (kb : List KnowledgeItem) (s : WorkflowState) :
    WorkflowOp → WorkflowState
  | WorkflowOp.enq e => add_email_to_queue s e
  | WorkflowOp.deq env => (process_next_email kb s env).state

/-- A freshly constructed workflow run through a call sequence. -/
def runOps (kb : List KnowledgeItem) (ops : List WorkflowOp) : WorkflowState :=
  ops.foldl (stepOp kb) workflowInit

/-- A concrete urgent pending email, used to instantiate theorems. -/
def eUrgent : QEmail :=
  { id := 1, sender_email := "u1@example.com",
    subject := "Urgent: System access blocked",
    body := "hello", sentiment := SentimentType.neutral,
    priority := PriorityLevel.urgent, status := EmailStatus.pending,
    extracted_info := none }

/-- A concrete non-urgent pending email, used to instantiate theorems. -/
def eNormal : QEmail :=
  { id := 2, sender_email := "u2@example.com",
    subject := "General query", body := "hello",
    sentiment := SentimentType.neutral,
    priority := PriorityLevel.not_urgent, status := EmailStatus.pending,
    extracted_info := none }

/-- A concrete non-pending email (already processed). -/
def eProcessed : QEmail :=
  { id := 3, sender_email := "u3@example.com",
    subject := "old", body := "hello",
    sentiment := SentimentType.neutral,
    priority := PriorityLevel.not_urgent, status := EmailStatus.processed,
    extracted_info := none }

/-- A workflow holding exactly one enqueued email. -/
def wState1 : WorkflowState := add_email_to_queue workflowInit eNormal

/-- A db environment whose first (try-block) commit raises. -/
def dbEnvCommitRaises : DbEnv :=
  { addRaises := false, commitRaises := true, failCommitRaises := false }

/-- A db environment where both the try-block commit and the
failure-recording commit raise. -/
def dbEnvBothRaise : DbEnv :=
  { addRaises := false, commitRaises := true, failCommitRaises := true }

/-- The workflow-queue invariant: every stored sequence number is below
the counter, sequence numbers are pairwise distinct, and each entry's
rank is the rank of its email's priority at enqueue time. -/
def QueueInv (s : WorkflowState) : Prop :=
  (∀ e ∈ s.queue, e.seq < s.counter) ∧
  (s.queue.map QueueEntry.seq).Nodup ∧
  (∀ e ∈ s.queue, e.rank = priorityRank e.email.priority)

/-! ### Evaluation checks of the hand-compiled scanners against
`re.findall`'s behaviour on concrete inputs -/

theorem check_extract_issues_punctuated :
    extract_issues "I cannot log in. It is broken badly!" =
      ["log in", "badly"] := by decide

theorem check_findPhones :
    findPhones "call 1-800-123-4567 now" = ["800-123-4567"] ∧
    findPhones "x 5551234567." = ["5551234567"] := by
  exact ⟨by decide, by decide⟩

theorem check_findEmails :
    findEmails "mail billing@company.com please" =
      ["billing@company.com"] := by decide

theorem check_findProducts :
    findProducts "the API and ABc X9 fine" = ["API", "X9"] := by decide

/-! ### Helper lemmas: the priority-queue order -/

theorem keyLE_refl (a : QueueEntry) : keyLE a a := Or.inr ⟨rfl, le_refl _⟩

theorem keyLE_trans {a b c : QueueEntry} (h1 : keyLE a b) (h2 : keyLE b c) :
    keyLE a c := by
  unfold keyLE at *
  rcases h1 with h1 | ⟨h1, h1'⟩ <;> rcases h2 with h2 | ⟨h2, h2'⟩ <;>
    [exact Or.inl (h1.trans h2); exact Or.inl (h2 ▸ h1);
     exact Or.inl (h1 ▸ h2); exact Or.inr ⟨h1.trans h2, h1'.trans h2'⟩]

theorem keyLE_total (a b : QueueEntry) : keyLE a b ∨ keyLE b a := by
  unfold keyLE; omega

theorem popMin_eq_none {l : List QueueEntry} :
    popMin l = none ↔ l = [] := by
  cases l with
  | nil => simp [popMin]
  | cons e rest =>
    simp only [popMin]
    cases h : popMin rest with
    | none => simp
    | some p => cases p with | mk m r => by_cases hk : keyLE e m <;> simp [hk]

theorem popMin_perm {l : List QueueEntry} {m : QueueEntry}
    {r : List QueueEntry} (h : popMin l = some (m, r)) :
    List.Perm (m :: r) l := by
  induction l generalizing m r with
  | nil => simp [popMin] at h
  | cons e rest ih =>
    simp only [popMin] at h
    cases hr : popMin rest with
    | none =>
      rw [hr] at h
      obtain rfl := (popMin_eq_none).1 hr
      simp only [Option.some.injEq, Prod.mk.injEq] at h
      obtain ⟨rfl, rfl⟩ := h
      exact List.Perm.refl _
    | some p =>
      cases p with
      | mk m' r' =>
        rw [hr] at h
        by_cases hk : keyLE e m'
        · simp only [hk, if_pos, Option.some.injEq, Prod.mk.injEq] at h
          obtain ⟨rfl, rfl⟩ := h
          exact List.Perm.cons _ (ih hr)
        · simp only [hk, if_neg, if_false, Option.some.injEq, Prod.mk.injEq,
            not_false_iff] at h
          obtain ⟨rfl, rfl⟩ := h
          exact List.Perm.trans (List.Perm.swap _ _ _)
            (List.Perm.cons _ (ih hr))

theorem popMin_min {l : List QueueEntry} {m : QueueEntry}
    {r : List QueueEntry} (h : popMin l = some (m, r)) :
    ∀ x ∈ l, keyLE m x := by
  induction l generalizing m r with
  | nil => simp [popMin] at h
  | cons e rest ih =>
    simp only [popMin] at h
    cases hr : popMin rest with
    | none =>
      rw [hr] at h
      obtain rfl := (popMin_eq_none).1 hr
      simp only [Option.some.injEq, Prod.mk.injEq] at h
      obtain ⟨rfl, rfl⟩ := h
      intro x hx
      rcases List.mem_singleton.1 hx with rfl
      exact keyLE_refl _
    | some p =>
      cases p with
      | mk m' r' =>
        rw [hr] at h
        by_cases hk : keyLE e m'
        · simp only [hk, if_pos, Option.some.injEq, Prod.mk.injEq] at h
          obtain ⟨rfl, rfl⟩ := h
          intro x hx
          rcases List.mem_cons.1 hx with rfl | hx
          · exact keyLE_refl _
          · exact keyLE_trans hk (ih hr x hx)
        · simp only [hk, if_neg, if_false, Option.some.injEq, Prod.mk.injEq,
            not_false_iff] at h
          obtain ⟨rfl, rfl⟩ := h
          intro x hx
          rcases List.mem_cons.1 hx with rfl | hx
          · rcases keyLE_total m' x with hmx | hxm
            · exact hmx
            · exact (hk hxm).elim
          · exact ih hr x hx

theorem popMin_mem {l : List QueueEntry} {m : QueueEntry}
    {r : List QueueEntry} (h : popMin l = some (m, r)) : m ∈ l :=
  (popMin_perm h).mem_iff.1 (List.mem_cons_self _ _)

/-! ### Helper lemmas: the workflow state -/

theorem process_next_email_state (kb : List KnowledgeItem)
    (s : WorkflowState) (env : DbEnv) :
    (process_next_email kb s env).state =
      match popMin s.queue with
      | none => s
      | some (_, rest) => { s with queue := rest } := by
  unfold process_next_email failureRecord
  cases hp : popMin s.queue with
  | none => rfl
  | some pr =>
    obtain ⟨entry, rest⟩ := pr
    dsimp only
    split
    · split_ifs <;> rfl
    · split_ifs <;> rfl

theorem queueInv_init : QueueInv workflowInit := by
  refine ⟨?_, ?_, ?_⟩ <;> simp [QueueInv, workflowInit]

theorem queueInv_enq {s : WorkflowState} (h : QueueInv s) (e : QEmail) :
    QueueInv (add_email_to_queue s e) := by
  obtain ⟨h1, h2, h3⟩ := h
  have hnot : s.counter ∉ s.queue.map QueueEntry.seq := by
    intro hmem
    obtain ⟨x, hx, hxe⟩ := List.mem_map.1 hmem
    exact absurd (hxe ▸ h1 x hx) (lt_irrefl _)
  refine ⟨?_, ?_, ?_⟩
  · intro x hx
    simp only [add_email_to_queue, List.mem_append, List.mem_singleton] at hx
    rcases hx with hx | rfl
    · exact (h1 x hx).trans (Nat.lt_succ_self _)
    · exact Nat.lt_succ_self _
  · simp only [add_email_to_queue, List.map_append, List.map_cons,
      List.map_nil]
    rw [List.nodup_append]
    exact ⟨h2, List.nodup_singleton _,
      by intro a ha hb; rw [List.mem_singleton] at hb; exact hnot (hb ▸ ha)⟩
  · intro x hx
    simp only [add_email_to_queue, List.mem_append, List.mem_singleton] at hx
    rcases hx with hx | rfl
    · exact h3 x hx
    · rfl

theorem queueInv_pop {s : WorkflowState} (h : QueueInv s)
    {m : QueueEntry} {rest : List QueueEntry}
    (hp : popMin s.queue = some (m, rest)) :
    QueueInv { s with queue := rest } := by
  obtain ⟨h1, h2, h3⟩ := h
  have hperm := popMin_perm hp
  have hsub : ∀ x ∈ rest, x ∈ s.queue := fun x hx =>
    hperm.mem_iff.1 (List.mem_cons_of_mem _ hx)
  refine ⟨fun x hx => h1 x (hsub x hx), ?_, fun x hx => h3 x (hsub x hx)⟩
  have : ((m :: rest).map QueueEntry.seq).Nodup :=
    (hperm.map QueueEntry.seq).symm.nodup h2
  exact (List.nodup_cons.1 this).2

theorem queueInv_proc {kb : List KnowledgeItem} {s : WorkflowState}
    (h : QueueInv s) (env : DbEnv) :
    QueueInv (process_next_email kb s env).state := by
  rw [process_next_email_state]
  cases hp : popMin s.queue with
  | none => exact h
  | some pr =>
    obtain ⟨m, rest⟩ := pr
    exact queueInv_pop h hp

theorem queueInv_run (kb : List KnowledgeItem) (ops : List WorkflowOp) :
    QueueInv (runOps kb ops) := by
  suffices h : ∀ s, QueueInv s → QueueInv (ops.foldl (stepOp kb) s) from
    h _ queueInv_init
  induction ops with
  | nil => exact fun s hs => hs
  | cons op rest ih =>
    intro s hs
    apply ih
    cases op with
    | enq e => exact queueInv_enq hs e
    | deq env => exact queueInv_proc hs env

/-- C1: on every workflow state reachable by a sequence of
`add_email_to_queue` / `process_next_email` calls, the stored sequence
numbers are pairwise distinct; `add_email_to_queue` appends an entry
carrying the next sequence number, which is strictly greater than every
sequence number already in the queue; and the entry that
`process_next_email` pops (via `popMin`) is minimal in the
lexicographic `(priorityRank, sequenceNumber)` order — so an urgent
entry is popped whenever any urgent item is present, and within an
equal rank the least (earliest-assigned) sequence number is popped. -/
theorem claim_C1_priority_queue_order (kb : List KnowledgeItem)
    (ops : List WorkflowOp) (s : WorkflowState) (hs : s = runOps kb ops) :
    (s.queue.map QueueEntry.seq).Nodup ∧
    (∀ e : QEmail,
      (add_email_to_queue s e).queue =
        s.queue ++
          [{ rank := priorityRank e.priority, seq := s.counter, email := e }] ∧
      ∀ x ∈ s.queue, x.seq < s.counter) ∧
    (∀ m rest, popMin s.queue = some (m, rest) →
      (∀ x ∈ s.queue, keyLE m x) ∧
      (∀ x ∈ s.queue, x.email.priority = PriorityLevel.urgent →
        m.rank = 0 ∧ m.email.priority = PriorityLevel.urgent) ∧
      (∀ x ∈ s.queue, x.rank = m.rank → m.seq ≤ x.seq) ∧
      (∀ env, (process_next_email kb s env).state.queue = rest)) := by
  subst hs
  obtain ⟨h1, h2, h3⟩ := queueInv_run kb ops
  refine ⟨h2, fun e => ⟨rfl, h1⟩, ?_⟩
  intro m rest hp
  have hmin := popMin_min hp
  have hmem := popMin_mem hp
  refine ⟨hmin, ?_, ?_, ?_⟩
  · intro x hx hxu
    have hxr : x.rank = 0 := by rw [h3 x hx, hxu]; rfl
    have hm0 : m.rank = 0 := by
      rcases hmin x hx with hlt | ⟨heq, _⟩ <;> omega
    refine ⟨hm0, ?_⟩
    have hmr := h3 m hmem
    cases hmp : m.email.priority with
    | urgent => rfl
    | not_urgent =>
      rw [hmp] at hmr
      rw [hmr] at hm0
      simp [priorityRank] at hm0
  · intro x hx hxr
    rcases hmin x hx with hlt | ⟨heq, hle⟩
    · omega
    · exact hle
  · intro env
    rw [process_next_email_state, hp]

/-- Witness for C1: enqueue a non-urgent then an urgent email into a
fresh workflow; the urgent entry (later arrival, sequence 1) precedes
the non-urgent one, its rank is 0, and popping leaves exactly the
non-urgent entry. -/
theorem claim_C1_priority_queue_order_witness :
    keyLE { rank := 0, seq := 1, email := eUrgent }
      { rank := 1, seq := 0, email := eNormal } ∧
    ({ rank := 0, seq := 1, email := eUrgent } : QueueEntry).rank = 0 ∧
    (process_next_email []
      (runOps [] [WorkflowOp.enq eNormal, WorkflowOp.enq eUrgent])
      dbOk).state.queue = [{ rank := 1, seq := 0, email := eNormal }] := by
  have h := claim_C1_priority_queue_order []
    [WorkflowOp.enq eNormal, WorkflowOp.enq eUrgent] _ rfl
  have h3 := h.2.2 { rank := 0, seq := 1, email := eUrgent }
    [{ rank := 1, seq := 0, email := eNormal }] (by decide)
  exact ⟨h3.1 { rank := 1, seq := 0, email := eNormal } (by decide),
    (h3.2.1 { rank := 0, seq := 1, email := eUrgent } (by decide)
      (by decide)).1,
    h3.2.2.2 dbOk⟩

/-- C8 counterexample: enqueueing an email whose status is `processed`
(not `pending`) into a fresh workflow performs the insertion anyway —
the queue gains the entry, so no precondition is reported and the state
does mutate. -/
theorem claim_C8_no_status_check_counterexample :
    eProcessed.status ≠ EmailStatus.pending ∧
    (add_email_to_queue workflowInit eProcessed).queue =
      [{ rank := 1, seq := 0, email := eProcessed }] := by
  constructor
  · decide
  · rfl

/-- C8 as amended: `add_email_to_queue` performs no status check at
all.  For every workflow state and every email — whatever its status —
it appends the entry `(priorityRank(priority), counter)` to the queue
and bumps the counter. -/
theorem claim_C8_enqueue_unconditional (s : WorkflowState) (e : QEmail) :
    (add_email_to_queue s e).queue =
      s.queue ++
        [{ rank := priorityRank e.priority, seq := s.counter, email := e }] ∧
    (add_email_to_queue s e).counter = s.counter + 1 :=
  ⟨rfl, rfl⟩

/-- C2: when the dequeued item's processing fails anywhere from the try
block's generation step through its first `db.commit` — a raising
knowledge search inside response generation, a raising `db.add`, or a
raising first `db.commit` — the except block sets the item's status to
`failed` and commits it: if that failure-recording commit succeeds, the
call returns normally with `True`, the item is recorded `failed`, the
last completed db call is the recording `commit`, and the item is not
re-enqueued (the queue is exactly the popped remainder); if the
failure-recording commit itself raises, the exception propagates to
the caller. -/
theorem claim_C2_failure_policy (kb : List KnowledgeItem)
    (s : WorkflowState) (env : DbEnv) (entry : QueueEntry)
    (rest : List QueueEntry)
    (hpop : popMin s.queue = some (entry, rest))
    (hfail :
      select_generated_content kb entry.email.subject entry.email.body
          (process_email entry.email.subject entry.email.body).sentiment
          (some (mergeExtracted entry.email.extracted_info
            (process_email entry.email.subject entry.email.body).extracted_info))
        = none
      ∨ env.addRaises = true ∨ env.commitRaises = true) :
    (env.failCommitRaises = false →
      (process_next_email kb s env).raised = none ∧
      (process_next_email kb s env).handled = true ∧
      ((process_next_email kb s env).item.map QEmail.status) =
        some EmailStatus.failed ∧
      (process_next_email kb s env).state.queue = rest ∧
      (process_next_email kb s env).dbLog.getLast? = some DbAction.commit) ∧
    (env.failCommitRaises = true →
      (process_next_email kb s env).raised = some DbError.commitFailed) := by
  unfold process_next_email
  rw [hpop]
  dsimp only
  rcases hsel : select_generated_content kb entry.email.subject
      entry.email.body
      (process_email entry.email.subject entry.email.body).sentiment
      (some (mergeExtracted entry.email.extracted_info
        (process_email entry.email.subject entry.email.body).extracted_info))
    with _ | content
  · unfold failureRecord
    constructor
    · intro hf
      simp [hf]
    · intro hf
      simp [hf]
  · rw [hsel] at hfail
    have henv : env.addRaises = true ∨ env.commitRaises = true := by
      rcases hfail with h | h | h
      · exact absurd h (by simp)
      · exact Or.inl h
      · exact Or.inr h
    unfold failureRecord
    rcases ha : env.addRaises with _ | _
    · rcases hc : env.commitRaises with _ | _
      · rw [ha, hc] at henv
        rcases henv with h | h <;> exact absurd h (by simp)
      · simp only [ha, hc, Bool.false_eq_true, if_false, if_true]
        constructor
        · intro hf
          simp [hf]
        · intro hf
          simp [hf]
    · simp only [ha, if_true]
      constructor
      · intro hf
        simp [hf]
      · intro hf
        simp [hf]

/-- Witness for C2 at a one-element queue: with the first commit
raising and the failure-recording commit succeeding, the call returns
normally, marks the item failed, ends its db log with the recording
commit and leaves the queue empty; with both commits raising, the
exception propagates. -/
theorem claim_C2_failure_policy_witness :
    ((process_next_email [] wState1 dbEnvCommitRaises).raised = none ∧
     (process_next_email [] wState1 dbEnvCommitRaises).handled = true ∧
     ((process_next_email [] wState1 dbEnvCommitRaises).item.map
        QEmail.status) = some EmailStatus.failed ∧
     (process_next_email [] wState1 dbEnvCommitRaises).state.queue = [] ∧
     (process_next_email [] wState1 dbEnvCommitRaises).dbLog.getLast? =
       some DbAction.commit) ∧
    (process_next_email [] wState1 dbEnvBothRaise).raised =
      some DbError.commitFailed := by
  constructor
  · exact (claim_C2_failure_policy [] wState1 dbEnvCommitRaises
      { rank := 1, seq := 0, email := eNormal } [] (by decide)
      (Or.inr (Or.inr rfl))).1 rfl
  · exact (claim_C2_failure_policy [] wState1 dbEnvBothRaise
      { rank := 1, seq := 0, email := eNormal } [] (by decide)
      (Or.inr (Or.inr rfl))).2 rfl

/-! ### Helper lemmas: dict merge (`extracted_info`) -/

theorem dictLookup_cons (p : String × InfoVal) (d : InfoDict) (k : String) :
    dictLookup (p :: d) k =
      if p.1 == k then some p.2 else dictLookup d k := by
  unfold dictLookup
  rw [List.find?_cons]
  by_cases h : p.1 == k <;> simp [h]

theorem dictLookup_map_replace_ne (d : InfoDict) (k' : String) (v : InfoVal)
    (k : String) (hne : k ≠ k') :
    dictLookup (d.map (fun p => if p.1 == k' then (k', v) else p)) k =
      dictLookup d k := by
  induction d with
  | nil => rfl
  | cons p d ih =>
    rw [List.map_cons, dictLookup_cons, dictLookup_cons]
    by_cases hp : p.1 = k'
    · rw [show (if p.1 == k' then (k', v) else p) = (k', v) from by simp [hp]]
      rw [show ((k', v).1 == k) = false from
        beq_false_of_ne (fun h => hne h.symm)]
      rw [show (p.1 == k) = false from
        beq_false_of_ne (fun h => hne (h.symm.trans hp))]
      simp only [Bool.false_eq_true, if_false]
      exact ih
    · rw [show (if p.1 == k' then (k', v) else p) = p from by simp [hp]]
      by_cases hk : (p.1 == k) = true
      · rw [hk]
        simp only [if_true]
      · rw [Bool.eq_false_iff.2 hk]
        simp only [Bool.false_eq_true, if_false]
        exact ih

theorem dictLookup_map_replace_self (d : InfoDict) (k' : String)
    (v : InfoVal) (hany : d.any (fun p => p.1 == k') = true) :
    dictLookup (d.map (fun p => if p.1 == k' then (k', v) else p)) k' =
      some v := by
  induction d with
  | nil => simp at hany
  | cons p d ih =>
    rw [List.map_cons, dictLookup_cons]
    by_cases hp : p.1 = k'
    · rw [show (if p.1 == k' then (k', v) else p) = (k', v) from by simp [hp]]
      rw [show ((k', v).1 == k') = true from by simp]
      simp only [if_true]
    · rw [show (if p.1 == k' then (k', v) else p) = p from by simp [hp]]
      rw [List.any_cons] at hany
      have hpf : (p.1 == k') = false := by simp [hp]
      rw [hpf, Bool.false_or] at hany
      rw [hpf]
      simp only [Bool.false_eq_true, if_false]
      exact ih hany

theorem dictLookup_eq_none_of_any_false (d : InfoDict) (k' : String)
    (hany : d.any (fun p => p.1 == k') = false) :
    dictLookup d k' = none := by
  unfold dictLookup
  rw [List.find?_eq_none.2]
  · rfl
  · intro x hx hbx
    exact absurd hbx (by simpa using List.any_eq_false.1 hany x hx)

theorem dictLookup_append_single (d : InfoDict) (k' : String) (v : InfoVal)
    (k : String) :
    dictLookup (d ++ [(k', v)]) k =
      match dictLookup d k with
      | some w => some w
      | none => if k' == k then some v else none := by
  unfold dictLookup
  rw [List.find?_append]
  cases h : List.find? (fun p => p.1 == k) d with
  | some w => simp [Option.or]
  | none =>
    simp only [Option.or, Option.map]
    rw [List.find?_cons]
    by_cases hk : k' == k <;> simp [hk]

theorem dictLookup_dictInsert (d : InfoDict) (k' : String) (v : InfoVal)
    (k : String) :
    dictLookup (dictInsert d k' v) k =
      if k = k' then some v else dictLookup d k := by
  unfold dictInsert
  by_cases hany : d.any (fun p => p.1 == k') = true
  · rw [if_pos hany]
    by_cases hk : k = k'
    · subst hk
      rw [if_pos rfl]
      exact dictLookup_map_replace_self d k v hany
    · rw [if_neg hk]
      exact dictLookup_map_replace_ne d k' v k hk
  · have hany' : d.any (fun p => p.1 == k') = false :=
      Bool.eq_false_iff.2 hany
    rw [if_neg hany, dictLookup_append_single]
    by_cases hk : k = k'
    · subst hk
      rw [dictLookup_eq_none_of_any_false d k hany']
      simp
    · cases hl : dictLookup d k with
      | some w => simp [hk]
      | none => simp [hk, Ne.symm hk]

theorem dictLookup_dictUpdate (d : InfoDict) (fresh : InfoDict) (k : String)
    (hnd : (fresh.map Prod.fst).Nodup) :
    dictLookup (dictUpdate d fresh) k =
      match dictLookup fresh k with
      | some v => some v
      | none => dictLookup d k := by
  induction fresh generalizing d with
  | nil => rfl
  | cons p fresh ih =>
    obtain ⟨k₀, v₀⟩ := p
    rw [List.map_cons] at hnd
    have hnotin : k₀ ∉ fresh.map Prod.fst := (List.nodup_cons.1 hnd).1
    have hnd' := (List.nodup_cons.1 hnd).2
    show dictLookup (dictUpdate (dictInsert d k₀ v₀) fresh) k = _
    rw [ih (dictInsert d k₀ v₀) hnd', dictLookup_cons]
    by_cases hk : k = k₀
    · subst hk
      have hfn : dictLookup fresh k = none := by
        unfold dictLookup
        rw [List.find?_eq_none.2]
        · rfl
        · intro x hx hbx
          exact hnotin
            (List.mem_map.2 ⟨x, hx, by simpa [beq_iff_eq] using hbx⟩)
      rw [hfn, dictLookup_dictInsert]
      simp
    · have hne : (k₀ == k) = false := by
        simp [beq_iff_eq]
        exact fun h => hk h.symm
      rw [dictLookup_dictInsert, if_neg hk, hne]
      cases dictLookup fresh k <;> simp

theorem extract_information_keys_nodup (body : String) :
    ((extract_information body).map Prod.fst).Nodup := by
  have h : (extract_information body).map Prod.fst =
      ["phones", "emails", "products", "sentiment_indicators"] := rfl
  rw [h]
  decide

theorem mergeExtracted_lookup (old : Option InfoDict) (fresh : InfoDict)
    (hnd : (fresh.map Prod.fst).Nodup) (k : String) :
    dictLookup (mergeExtracted old fresh) k =
      match dictLookup fresh k with
      | some v => some v
      | none => infoLookup old k := by
  cases old with
  | none =>
    show dictLookup fresh k = _
    cases h : dictLookup fresh k <;> simp [h, infoLookup]
  | some d =>
    cases d with
    | nil =>
      show dictLookup fresh k = _
      cases h : dictLookup fresh k <;> simp [h, infoLookup, dictLookup]
    | cons q d' =>
      rw [show mergeExtracted (some (q :: d')) fresh =
        dictUpdate (q :: d') fresh from rfl]
      rw [dictLookup_dictUpdate _ fresh k hnd]
      cases dictLookup fresh k <;> rfl

/-- C7: the `extracted_info` merge of `process_next_email` is
field-by-field.  Whenever an entry is popped, every branch of the call
leaves the item's `extracted_info` equal to the merge of its previous
mapping with the classifier's fresh dictionary, and that merge obeys:
any key the classifier produced holds the fresh value, while any key it
did not produce keeps exactly its previous value. -/
theorem claim_C7_extracted_info_merge (kb : List KnowledgeItem)
    (s : WorkflowState) (env : DbEnv) (entry : QueueEntry)
    (rest : List QueueEntry)
    (hpop : popMin s.queue = some (entry, rest)) :
    ((process_next_email kb s env).item.map QEmail.extracted_info) =
      some (some (mergeExtracted entry.email.extracted_info
        (process_email entry.email.subject entry.email.body).extracted_info)) ∧
    (∀ k v,
      dictLookup
          (process_email entry.email.subject entry.email.body).extracted_info
          k = some v →
      dictLookup (mergeExtracted entry.email.extracted_info
          (process_email entry.email.subject entry.email.body).extracted_info)
          k = some v) ∧
    (∀ k,
      dictLookup
          (process_email entry.email.subject entry.email.body).extracted_info
          k = none →
      dictLookup (mergeExtracted entry.email.extracted_info
          (process_email entry.email.subject entry.email.body).extracted_info)
          k = infoLookup entry.email.extracted_info k) := by
  refine ⟨?_, ?_, ?_⟩
  · unfold process_next_email failureRecord
    rw [hpop]
    dsimp only
    split
    · split_ifs <;> rfl
    · split_ifs <;> rfl
  · intro k v hv
    have hnd :
        (((process_email entry.email.subject
          entry.email.body).extracted_info).map Prod.fst).Nodup :=
      extract_information_keys_nodup entry.email.body
    rw [mergeExtracted_lookup _ _ hnd k, hv]
  · intro k hk
    have hnd :
        (((process_email entry.email.subject
          entry.email.body).extracted_info).map Prod.fst).Nodup :=
      extract_information_keys_nodup entry.email.body
    rw [mergeExtracted_lookup _ _ hnd k, hk]

/-- Witness for C7 at a one-element queue holding `eNormal` (whose
`extracted_info` is `None`): the processed item carries the merged
dictionary, and the classifier-produced key `phones` holds the fresh
(empty) phone list. -/
theorem claim_C7_extracted_info_merge_witness :
    ((process_next_email [] wState1 dbOk).item.map QEmail.extracted_info) =
      some (some (mergeExtracted eNormal.extracted_info
        (process_email eNormal.subject eNormal.body).extracted_info)) ∧
    dictLookup (mergeExtracted eNormal.extracted_info
        (process_email eNormal.subject eNormal.body).extracted_info)
      "phones" = some (InfoVal.strs []) := by
  have h := claim_C7_extracted_info_merge [] wState1 dbOk
    { rank := 1, seq := 0, email := eNormal } [] (by decide)
  exact ⟨h.1, h.2.1 "phones" (InfoVal.strs []) (by decide)⟩

/-- C4: the classifier's sentiment comes from the body alone
(`process_email` feeds only `body` to `analyze_sentiment`), and with
`keywordHits` counting the keywords of each fixed list that occur
case-insensitively in the body, the result is `positive` when the
positive count exceeds the negative count, `negative` when the negative
count exceeds the positive count, and `neutral` on ties. -/
theorem claim_C4_sentiment_rule (subject body : String) :
    (process_email subject body).sentiment = analyze_sentiment body ∧
    (keywordHits positive_keywords (strLower body) >
        keywordHits negative_keywords (strLower body) →
      analyze_sentiment body = SentimentType.positive) ∧
    (keywordHits negative_keywords (strLower body) >
        keywordHits positive_keywords (strLower body) →
      analyze_sentiment body = SentimentType.negative) ∧
    (keywordHits positive_keywords (strLower body) =
        keywordHits negative_keywords (strLower body) →
      analyze_sentiment body = SentimentType.neutral) := by
  refine ⟨rfl, ?_, ?_, ?_⟩ <;>
    · intro h
      unfold analyze_sentiment
      dsimp only
      split_ifs with h1 h2 <;> first | rfl | omega

/-- Witness for C4: a body with one positive hit is positive, one with
one negative hit is negative, and one with one of each is neutral. -/
theorem claim_C4_sentiment_rule_witness :
    analyze_sentiment "great" = SentimentType.positive ∧
    analyze_sentiment "bad" = SentimentType.negative ∧
    analyze_sentiment "great bad" = SentimentType.neutral :=
  ⟨(claim_C4_sentiment_rule "" "great").2.1 (by decide),
   (claim_C4_sentiment_rule "" "bad").2.2.1 (by decide),
   (claim_C4_sentiment_rule "" "great bad").2.2.2 (by decide)⟩

/-! ### Helper lemmas: knowledge-base search -/

theorem decorate_keys_some {ql : String} {rs : List KnowledgeItem}
    (h : ∀ x ∈ rs, (x.title ++ x.content).length ≠ 0) :
    ∃ ds, decorate_keys ql rs = some ds ∧ ds.map Prod.snd = rs := by
  induction rs with
  | nil => exact ⟨[], rfl, rfl⟩
  | cons x rs ih =>
    obtain ⟨ds, hds, hmap⟩ := ih (fun y hy => h y (List.mem_cons_of_mem _ hy))
    have hx := h x (List.mem_cons_self _ _)
    have hkey : relevance_key ql x =
        some ((ql.length : ℚ) / (((x.title ++ x.content).length : ℚ))) := by
      unfold relevance_key
      dsimp only
      rw [if_neg hx]
    exact ⟨((ql.length : ℚ) / (((x.title ++ x.content).length : ℚ)), x) :: ds,
      by simp [decorate_keys, hkey, hds], by simp [hmap]⟩

theorem search_items_some {items : List KnowledgeItem} {q : String}
    {category : Option String} {limit : Nat}
    (h : ∀ x ∈ items, search_matches (strLower q) category x = true →
      (x.title ++ x.content).length ≠ 0) :
    ∃ l, search_items items q category limit = some l ∧
      ∀ x ∈ items.filter (search_matches (strLower q) category),
        (items.filter (search_matches (strLower q) category)).length ≤ limit →
        x ∈ l := by
  obtain ⟨ds, hds, hmap⟩ :=
    @decorate_keys_some (strLower q)
      (items.filter (search_matches (strLower q) category))
      (fun x hx => h x (List.mem_filter.1 hx).1 (List.mem_filter.1 hx).2)
  refine ⟨((ds.mergeSort rank_desc).map Prod.snd).take limit, ?_, ?_⟩
  · unfold search_items
    dsimp only
    rw [hds]
  · intro x hx hlen
    have hx' : x ∈ ds.map Prod.snd := hmap ▸ hx
    have hmem : x ∈ (ds.mergeSort rank_desc).map Prod.snd := by
      obtain ⟨p, hp, hpe⟩ := List.mem_map.1 hx'
      exact List.mem_map.2 ⟨p, List.mem_mergeSort.2 hp, hpe⟩
    have hlen2 : ((ds.mergeSort rank_desc).map Prod.snd).length ≤ limit := by
      rw [List.length_map, List.length_mergeSort]
      calc ds.length = (ds.map Prod.snd).length := (List.length_map _ _).symm
        _ = (items.filter (search_matches (strLower q) category)).length := by
          rw [hmap]
        _ ≤ limit := hlen
    rw [List.take_of_length_le hlen2]
    exact hmem

/-- C10: the search is not total.  A stored document whose title and
content are both empty but which matches the query (here via a tag, and
every document matches the empty query) makes the ranking sort divide
by zero, so `search_items` raises instead of returning a list; and
whenever every matching document has non-empty title+content, the
search returns a list. -/
theorem claim_C10_search_partiality :
    (search_items
        [{ id := 0, title := "", content := "", category := none,
           tags := ["password"] }] "password" none 10 = none) ∧
    (∀ (items : List KnowledgeItem) (q : String) (category : Option String)
        (limit : Nat),
      (∀ x ∈ items, search_matches (strLower q) category x = true →
        (x.title ++ x.content).length ≠ 0) →
      ∃ l, search_items items q category limit = some l) := by
  constructor
  · decide
  · intro items q category limit h
    obtain ⟨l, hl, _⟩ := search_items_some h
    exact ⟨l, hl⟩

/-- Witness for C10: on a store whose only document has non-empty
title+content, a matching search returns a list. -/
theorem claim_C10_search_partiality_witness :
    ∃ l, search_items
      [{ id := 0, title := "t", content := "c", category := none,
         tags := [] }] "t" none 10 = some l :=
  claim_C10_search_partiality.2
    [{ id := 0, title := "t", content := "c", category := none, tags := [] }]
    "t" none 10 (by decide)

/-- C3 counterexample: add a document with empty title, empty content
and no tags to an empty knowledge base.  The empty query is a
(case-insensitive) substring of that document's title, yet the search
immediately after the add raises `ZeroDivisionError` (modelled `none`)
instead of returning a list containing the document. -/
theorem claim_C3_roundtrip_counterexample :
    containsSub (strLower "") (strLower "") = true ∧
    search_items (add_item kbInit "" "" none []).2.items "" none 10 =
      none := by
  constructor
  · decide
  · decide

/-- C3 as amended: a document added via `add_item` is found by an
immediate `search_items` with any case-insensitive substring of its
title, content or tags as the query and no category filter — provided
every document matching the query in the post-add store has non-empty
title+content (otherwise the ranking sort raises) and at most `limit`
documents match (otherwise the cap can cut the new, last-sorted
document off). -/
theorem claim_C3_roundtrip_amended (kb : KBState) (title content : String)
    (category : Option String) (tags : List String) (q : String)
    (limit : Nat)
    (hsub : containsSub (strLower title) (strLower q) = true ∨
            containsSub (strLower content) (strLower q) = true ∨
            tags.any (fun t => containsSub (strLower t) (strLower q)) = true)
    (hnz : ∀ x ∈ (add_item kb title content category tags).2.items,
      search_matches (strLower q) none x = true →
      (x.title ++ x.content).length ≠ 0)
    (hcount : ((add_item kb title content category tags).2.items.filter
        (search_matches (strLower q) none)).length ≤ limit) :
    ∃ l, search_items (add_item kb title content category tags).2.items
        q none limit = some l ∧
      ({ id := (add_item kb title content category tags).1, title := title,
         content := content, category := category,
         tags := tags } : KnowledgeItem) ∈ l := by
  obtain ⟨l, hl, hmem⟩ := search_items_some hnz
  refine ⟨l, hl, ?_⟩
  apply hmem _ _ hcount
  apply List.mem_filter.2
  constructor
  · show _ ∈ kb.items ++ [_]
    exact List.mem_append_right _ (List.mem_singleton.2 rfl)
  · rcases hsub with h | h | h <;> simp [search_matches, h]

/-- Witness for C3 (amended): add a titled document to an empty base
and find it with a substring of its title. -/
theorem claim_C3_roundtrip_amended_witness :
    ∃ l, search_items (add_item kbInit "Account" "c" none []).2.items
        "count" none 10 = some l ∧
      ({ id := (add_item kbInit "Account" "c" none []).1,
         title := "Account", content := "c", category := none,
         tags := [] } : KnowledgeItem) ∈ l :=
  claim_C3_roundtrip_amended kbInit "Account" "c" none [] "count" 10
    (Or.inl (by decide)) (by decide) (by decide)

/-- C5 counterexample: on subject "Urgent: Cannot access account" and
body "I cannot log in, please help immediately" the sentiment is
negative and the empathetic variant runs, but `_extract_issues`
extracts nothing — its patterns demand a terminating `.`, `!` or `?`
and the body has none — so there is no extracted issue phrase at all,
let alone one containing "log in". -/
theorem claim_C5_no_issue_extracted_counterexample :
    analyze_sentiment "I cannot log in, please help immediately" =
      SentimentType.negative ∧
    extract_issues "I cannot log in, please help immediately" = [] ∧
    ¬∃ issue ∈ extract_issues "I cannot log in, please help immediately",
      containsSub issue "log in" = true := by
  refine ⟨by decide, by decide, ?_⟩
  rw [show extract_issues "I cannot log in, please help immediately" = []
    from by decide]
  simp

/-- C5 as amended: for that input the classification is `urgent` and
`negative` and the pipeline's dispatch selects the empathetic variant —
but the issue-extraction patterns, which all require a terminating
sentence punctuation mark, match nothing in this unpunctuated body, so
the empathetic response is the fixed apology template with no issue
list (and hence no extracted phrase containing "log in"). -/
theorem claim_C5_pipeline_example_amended :
    determine_priority "Urgent: Cannot access account"
      "I cannot log in, please help immediately" = PriorityLevel.urgent ∧
    analyze_sentiment "I cannot log in, please help immediately" =
      SentimentType.negative ∧
    (∀ (kb : List KnowledgeItem) (info : Option InfoDict),
      select_generated_content kb "Urgent: Cannot access account"
          "I cannot log in, please help immediately"
          (analyze_sentiment "I cannot log in, please help immediately")
          info =
        generate_empathetic_response kb "Urgent: Cannot access account"
          "I cannot log in, please help immediately"
          (analyze_sentiment "I cannot log in, please help immediately")
          info) ∧
    extract_issues "I cannot log in, please help immediately" = [] ∧
    (∀ (kb : List KnowledgeItem) (info : Option InfoDict),
      generate_empathetic_response kb "Urgent: Cannot access account"
          "I cannot log in, please help immediately"
          (analyze_sentiment "I cannot log in, please help immediately")
          info =
        some (empathetic_text "I cannot log in, please help immediately")) := by
  refine ⟨by decide, by decide, ?_, by decide, ?_⟩
  · intro kb info
    unfold select_generated_content
    rw [if_pos (by decide :
      analyze_sentiment "I cannot log in, please help immediately" =
        SentimentType.negative)]
  · intro kb info
    unfold generate_empathetic_response
    rw [if_neg (by decide :
      ¬(analyze_sentiment "I cannot log in, please help immediately" ≠
        SentimentType.negative))]

/-- C6: the synthesis variant is a function of the sentiment alone.
The dispatch runs the empathetic entry point exactly when the sentiment
is negative and the standard generator otherwise; for every
non-negative sentiment the empathetic entry point itself returns
exactly the standard generator's output on the same arguments; and the
coordinator's draft `Response` content is exactly the dispatch's output
on the freshly computed sentiment. -/
theorem claim_C6_variant_by_sentiment (kb : List KnowledgeItem)
    (subject body : String) (sentiment : SentimentType)
    (info : Option InfoDict) :
    (sentiment = SentimentType.negative →
      select_generated_content kb subject body sentiment info =
        generate_empathetic_response kb subject body sentiment info) ∧
    (sentiment ≠ SentimentType.negative →
      select_generated_content kb subject body sentiment info =
        generate_response kb subject body sentiment info) ∧
    (sentiment ≠ SentimentType.negative →
      generate_empathetic_response kb subject body sentiment info =
        generate_response kb subject body sentiment info) ∧
    (∀ (s : WorkflowState) (env : DbEnv) (entry : QueueEntry)
        (rest : List QueueEntry),
      popMin s.queue = some (entry, rest) →
      env.addRaises = false → env.commitRaises = false →
      (process_next_email kb s env).resp =
        (select_generated_content kb entry.email.subject entry.email.body
            (process_email entry.email.subject entry.email.body).sentiment
            (some (mergeExtracted entry.email.extracted_info
              (process_email entry.email.subject
                entry.email.body).extracted_info))).map
          (fun c => { email_id := entry.email.id, generated_content := c,
                      status := "draft" })) := by
  refine ⟨?_, ?_, ?_, ?_⟩
  · intro h
    unfold select_generated_content
    rw [if_pos h]
  · intro h
    unfold select_generated_content
    rw [if_neg h]
  · intro h
    unfold generate_empathetic_response
    rw [if_pos h]
  · intro s env entry rest hpop ha hc
    unfold process_next_email
    rw [hpop]
    dsimp only
    cases hsel : select_generated_content kb entry.email.subject
        entry.email.body
        (process_email entry.email.subject entry.email.body).sentiment
        (some (mergeExtracted entry.email.extracted_info
          (process_email entry.email.subject
            entry.email.body).extracted_info)) with
    | none =>
      unfold failureRecord
      split_ifs <;> rfl
    | some c =>
      rw [ha, hc]
      simp only [Bool.false_eq_true, if_false]
      rfl

/-- Witness for C6: the dispatch at negative and neutral sentiment, the
empathetic fall-through at neutral sentiment, and the coordinator's
response content on a one-element queue. -/
theorem claim_C6_variant_by_sentiment_witness :
    select_generated_content [] "s" "b" SentimentType.negative none =
      generate_empathetic_response [] "s" "b" SentimentType.negative none ∧
    select_generated_content [] "s" "b" SentimentType.neutral none =
      generate_response [] "s" "b" SentimentType.neutral none ∧
    generate_empathetic_response [] "s" "b" SentimentType.neutral none =
      generate_response [] "s" "b" SentimentType.neutral none ∧
    (process_next_email [] wState1 dbOk).resp =
      (select_generated_content [] eNormal.subject eNormal.body
          (process_email eNormal.subject eNormal.body).sentiment
          (some (mergeExtracted eNormal.extracted_info
            (process_email eNormal.subject
              eNormal.body).extracted_info))).map
        (fun c => { email_id := eNormal.id, generated_content := c,
                    status := "draft" }) :=
  ⟨(claim_C6_variant_by_sentiment [] "s" "b" SentimentType.negative none).1
      rfl,
   (claim_C6_variant_by_sentiment [] "s" "b" SentimentType.neutral none).2.1
      (by decide),
   (claim_C6_variant_by_sentiment [] "s" "b"
      SentimentType.neutral none).2.2.1 (by decide),
   (claim_C6_variant_by_sentiment [] eNormal.subject eNormal.body
      SentimentType.neutral none).2.2.2 wState1 dbOk
      { rank := 1, seq := 0, email := eNormal } [] (by decide) rfl rfl⟩

/-- C9: classification and synthesis are deterministic — in this
embedding they are pure functions of the subject, body, sentiment,
extracted info and the knowledge-index state, with no other state to
read (the source's keyword lists and templates are module-level
constants, and no randomness, time or I/O enters the computation), so
two calls on identical arguments are definitionally equal. -/
theorem claim_C9_determinism (kb : List KnowledgeItem)
    (subject body : String) (sentiment : SentimentType)
    (info : Option InfoDict) :
    process_email subject body = process_email subject body ∧
    extract_topics subject body = extract_topics subject body ∧
    generate_response kb subject body sentiment info =
      generate_response kb subject body sentiment info ∧
    generate_empathetic_response kb subject body sentiment info =
      generate_empathetic_response kb subject body sentiment info :=
  ⟨rfl, rfl, rfl, rfl⟩
